import Mathlib

/-!
Verification development for the svg-writer library (single header
`svg_writer.hpp`).  The C++ code is shallowly embedded: `double` becomes `ℚ`
(exact arithmetic; the source performs only +, -, *, / and comparisons),
`int` becomes `ℤ`, `unsigned` becomes `ℕ`, `std::string` becomes `List Char`,
and the serialization of a number uses a fixed concrete rendering `qstr`
standing for the stream output of a numeric value.  Throwing functions
return `Except`.  Shapes, markers and documents are modelled as values;
`clone()` (a deep copy) is the identity on values.
-/

namespace SvgWriter

/-- Strings are modelled as lists of characters. -/
abbrev Str := List Char

/-- Rendering of a natural number, digit characters in base 10. -/
def natStr (n : Nat) : Str := Nat.toDigits 10 n

/-- Rendering of an integer: optional minus sign and digits. -/
def intStr (i : Int) : Str :=
  (if i < 0 then ("-").toList else []) ++ natStr i.natAbs

/-- Fixed concrete rendering of a rational number, standing for the numeric
output of the C++ `stringstream`. -/
def qstr (q : Rat) : Str :=
  intStr q.num ++ (if q.den = 1 then [] else ("/").toList ++ natStr q.den)

/-- `attribute()` of the source: `name="value<unit>" ` (with trailing blank),
for an already-rendered value. -/
def attrOf (name value unit : Str) : Str :=
  name ++ ("=\"").toList ++ value ++ unit ++ ("\" ").toList

/-- `attribute()` for a string value without unit. -/
def attrS (name value : Str) : Str := attrOf name value []

/-- `attribute()` for a numeric value without unit. -/
def attrQ (name : Str) (value : Rat) : Str := attrOf name (qstr value) []

/-- `elemStart()` of the source. -/
def elemStart (name : Str) (single : Bool) : Str :=
  ("\t<").toList ++ name ++ (if single then (">\n").toList else (" ").toList)

/-- `elemEnd()` of the source. -/
def elemEnd (name : Str) : Str := ("</").toList ++ name ++ (">\n").toList

/-- `emptyElemEnd()` of the source. -/
def emptyElemEnd : Str := ("/>\n").toList

/-- Concatenation of a list of strings. -/
def strJoin (l : List Str) : Str := l.foldr (· ++ ·) []

/-- `ends_with()` of the source: size guard, then suffix comparison. -/
def endsWith (value ending : Str) : Bool :=
  if value.length < ending.length then false else ending.isSuffixOf value

/-- `equal()` of the source: approximate comparison with `eps = 1e-10`. -/
def qeq (a b : Rat) : Bool := |a - b| < 1 / 10 ^ 10

/-- Lexicographic strict comparison of strings (`operator<` of
`std::string`), used by the marker set comparator and `std::sort`. -/
def strLt : Str → Str → Bool
  | [], [] => false
  | [], _ :: _ => true
  | _ :: _, [] => false
  | a :: as, b :: bs => if a < b then true else if b < a then false else strLt as bs

/-- `Point` of the source. -/
structure Point where
  x : Rat
  y : Rat

/-- `Dimensions` of the source. -/
structure Dimensions where
  width : Rat
  height : Rat

/-- `Layout::Origin` of the source. -/
inductive Origin where
  | TopLeft
  | BottomLeft
  | TopRight
  | BottomRight
deriving DecidableEq

/-- `Layout` of the source. -/
structure Layout where
  dimensions : Dimensions
  scale : Rat
  origin : Origin
  origin_offset : Point

/-- The default `Layout()` value: dimensions (400, 300), `BottomLeft`,
scale 1, offset (0, 0). -/
def defaultLayout : Layout := ⟨⟨400, 300⟩, 1, Origin.BottomLeft, ⟨0, 0⟩⟩

/-- `translateX()` of the source. -/
def translateX (x : Rat) (layout : Layout) : Rat :=
  if layout.origin = Origin.BottomRight ∨ layout.origin = Origin.TopRight then
    layout.dimensions.width - ((x + layout.origin_offset.x) * layout.scale)
  else
    (layout.origin_offset.x + x) * layout.scale

/-- `translateY()` of the source. -/
def translateY (y : Rat) (layout : Layout) : Rat :=
  if layout.origin = Origin.BottomLeft ∨ layout.origin = Origin.BottomRight then
    layout.dimensions.height - ((y + layout.origin_offset.y) * layout.scale)
  else
    (layout.origin_offset.y + y) * layout.scale

/-- `translateScale()` of the source. -/
def translateScale (dimension : Rat) (layout : Layout) : Rat :=
  dimension * layout.scale

/-- `Color` of the source: a transparent flag and an rgb triple. -/
structure Color where
  transparent : Bool
  red : Int
  green : Int
  blue : Int

/-- `Color::Transparent`. -/
def transparentColor : Color := ⟨true, 0, 0, 0⟩

/-- `Color::Black`. -/
def blackColor : Color := ⟨false, 0, 0, 0⟩

/-- `Color::Purple`. -/
def purpleColor : Color := ⟨false, 128, 0, 128⟩

/-- `Color::toString()`: `none` for transparent, otherwise `rgb(r,g,b)`. -/
def Color.render (c : Color) : Str :=
  if c.transparent then ("none").toList
  else ("rgb(").toList ++ intStr c.red ++ (",").toList ++ intStr c.green ++
    (",").toList ++ intStr c.blue ++ (")").toList

/-- `Fill` of the source. -/
structure Fill where
  color : Color
  opacity : Rat

/-- The default `Fill()`: transparent color, opacity 1. -/
def defaultFill : Fill := ⟨transparentColor, 1⟩

/-- `Fill::toString()`. -/
def Fill.render (f : Fill) (_l : Layout) : Str :=
  attrS ("fill").toList f.color.render ++
    (if f.opacity < 1 then attrQ ("fill-opacity").toList f.opacity else [])

/-- `Stroke` of the source. -/
structure Stroke where
  width : Rat
  color : Color
  nonScaling : Bool
  miterlimit : Rat
  dasharray : List Nat
  dashoffset : Nat
  opacity : Rat

/-- The default `Stroke()`: width -1 (the "no stroke" sentinel). -/
def defaultStroke : Stroke := ⟨-1, transparentColor, false, -1, [], 0, 1⟩

/-- The comma-joined dash-array list of `Stroke::toString()`. -/
def dashArrayStr : List Nat → Str
  | [] => []
  | [n] => natStr n
  | n :: rest => natStr n ++ (",").toList ++ dashArrayStr rest

/-- `Stroke::toString()`: empty for a negative width, otherwise the
stroke attributes in source order. -/
def Stroke.render (s : Stroke) (l : Layout) : Str :=
  if s.width < 0 then []
  else
    attrQ ("stroke-width").toList (translateScale s.width l) ++
    attrS ("stroke").toList s.color.render ++
    (if s.miterlimit ≥ 0 then
      attrQ ("stroke-miterlimit").toList (translateScale s.miterlimit l) else []) ++
    attrQ ("stroke-dashoffset").toList (translateScale (s.dashoffset : Rat) l) ++
    (if s.dasharray ≠ [] then attrS ("stroke-dasharray").toList (dashArrayStr s.dasharray) else []) ++
    (if s.opacity < 1 then attrQ ("stroke-opacity").toList s.opacity else []) ++
    (if s.nonScaling then attrS ("vector-effect").toList ("non-scaling-stroke").toList else [])

/-- `Font` of the source. -/
structure Font where
  size : Rat
  family : Str

/-- `Font::toString()`. -/
def Font.render (f : Font) (l : Layout) : Str :=
  attrQ ("font-size").toList (translateScale f.size l) ++ attrS ("font-family").toList f.family

/-- The data of the `Shape` base class: stroke, z order, identifier, style
string, visibility flag. -/
structure ShapeBase where
  stroke : Stroke
  z : Int
  id : Str
  style : Str
  visible : Bool

/-- A `ShapeBase` with all defaults: default stroke, z = 0, empty id and
style, visible. -/
def defaultBase : ShapeBase := ⟨defaultStroke, 0, [], [], true⟩

/-- `Circle` data: base, fill, center and the stored radius (the
constructor receives a diameter and stores `diameter / 2`). -/
structure CircleData where
  base : ShapeBase
  fill : Fill
  center : Point
  radius : Rat

/-- The `Circle` constructor of the source: takes a center and a
*diameter* and stores `radius = diameter / 2`. -/
def circleMake (center : Point) (diameter : Rat) (fill : Fill) (stroke : Stroke) : CircleData :=
  ⟨{ defaultBase with stroke := stroke }, fill, center, diameter / 2⟩

/-- `Elipse` data (sic, source spelling). -/
structure ElipseData where
  base : ShapeBase
  fill : Fill
  center : Point
  radius_width : Rat
  radius_height : Rat

/-- `Rectangle` data. -/
structure RectData where
  base : ShapeBase
  fill : Fill
  edge : Point
  width : Rat
  height : Rat
  rx : Rat
  ry : Rat

/-- `Polygon` data. -/
structure PolygonData where
  base : ShapeBase
  fill : Fill
  points : List Point

/-- `Path` data: a list of subpaths. -/
structure PathData where
  base : ShapeBase
  fill : Fill
  paths : List (List Point)

/-- `TextAnchor` of the source. -/
inductive TextAnchor where
  | Start
  | Middle
  | End
  | None
deriving DecidableEq

/-- `DominantBaseline` of the source. -/
inductive DominantBaseline where
  | TextBottom
  | Alphabetic
  | Ideographic
  | Middle
  | Central
  | Mathematical
  | Hanging
  | TextTop
  | None
deriving DecidableEq

/-- `Text` data. -/
structure TextData where
  base : ShapeBase
  fill : Fill
  origin : Point
  content : Str
  font : Font
  anchor : TextAnchor
  baseline : DominantBaseline

mutual

/-- `Marker` of the source: identifier, geometry parameters, orientation
string and the owned (cloned) shapes. -/
inductive Marker : Type where
  | mk (id : Str) (marker_width marker_height ref_x ref_y : Rat)
      (orient : Str) (shapes : List ShapeV)

/-- `Line` data: base, the two end points, and the three non-owning
marker references of `Markerable`. -/
inductive LineData : Type where
  | mk (base : ShapeBase) (start_point end_point : Point)
      (marker_start marker_mid marker_end : Option Marker)

/-- `Polyline` data: base, points, and the three marker references of
`Markerable`. -/
inductive Poly : Type where
  | mk (base : ShapeBase) (points : List Point)
      (marker_start marker_mid marker_end : Option Marker)

/-- `LineChart` data: base (whose stroke is unused by its serialization),
axis stroke, margin and the collected polylines. -/
inductive ChartData : Type where
  | mk (base : ShapeBase) (axis_stroke : Stroke) (margin : Dimensions)
      (polylines : List Poly)

/-- The closed polymorphic `Shape` hierarchy of the source. -/
inductive ShapeV : Type where
  | circle (c : CircleData)
  | elipse (e : ElipseData)
  | rect (r : RectData)
  | line (d : LineData)
  | polygon (pg : PolygonData)
  | path (pa : PathData)
  | polyline (pl : Poly)
  | text (t : TextData)
  | chart (lc : ChartData)

end

/-- The identifier of a marker. -/
def Marker.id : Marker → Str
  | .mk i _ _ _ _ _ _ => i

/-- `Marker::valid()`: the identifier is non-empty. -/
def Marker.valid (m : Marker) : Bool := m.id ≠ []

def Marker.marker_width : Marker → Rat
  | .mk _ w _ _ _ _ _ => w

def Marker.marker_height : Marker → Rat
  | .mk _ _ h _ _ _ _ => h

def Marker.ref_x : Marker → Rat
  | .mk _ _ _ rx _ _ _ => rx

def Marker.ref_y : Marker → Rat
  | .mk _ _ _ _ ry _ _ => ry

def Marker.orient : Marker → Str
  | .mk _ _ _ _ _ o _ => o

def Marker.shapes : Marker → List ShapeV
  | .mk _ _ _ _ _ _ s => s

def Poly.base : Poly → ShapeBase
  | .mk b _ _ _ _ => b

def Poly.points : Poly → List Point
  | .mk _ p _ _ _ => p

def Poly.marker_start : Poly → Option Marker
  | .mk _ _ ms _ _ => ms

def Poly.marker_mid : Poly → Option Marker
  | .mk _ _ _ mm _ => mm

def Poly.marker_end : Poly → Option Marker
  | .mk _ _ _ _ me => me

def LineData.base : LineData → ShapeBase
  | .mk b _ _ _ _ _ => b

def LineData.start_point : LineData → Point
  | .mk _ s _ _ _ _ => s

def LineData.end_point : LineData → Point
  | .mk _ _ e _ _ _ => e

def LineData.marker_start : LineData → Option Marker
  | .mk _ _ _ ms _ _ => ms

def LineData.marker_mid : LineData → Option Marker
  | .mk _ _ _ _ mm _ => mm

def LineData.marker_end : LineData → Option Marker
  | .mk _ _ _ _ _ me => me

def ChartData.base : ChartData → ShapeBase
  | .mk b _ _ _ => b

def ChartData.axis_stroke : ChartData → Stroke
  | .mk _ a _ _ => a

def ChartData.margin : ChartData → Dimensions
  | .mk _ _ m _ => m

def ChartData.polylines : ChartData → List Poly
  | .mk _ _ _ p => p

/-- The `ShapeBase` of any shape variant. -/
def ShapeV.base : ShapeV → ShapeBase
  | .circle c => c.base
  | .elipse e => e.base
  | .rect r => r.base
  | .line d => d.base
  | .polygon pg => pg.base
  | .path pa => pa.base
  | .polyline pl => pl.base
  | .text t => t.base
  | .chart lc => lc.base

/-- The z order of a shape (the public `z` member of `Shape`). -/
def ShapeV.z (s : ShapeV) : Int := s.base.z

/-- Whether a shape is the `LineChart` variant. -/
def ShapeV.isChart : ShapeV → Bool
  | .chart _ => true
  | _ => false

/-- `Identifiable::serializeId()`: empty for an empty identifier, else the
`id` attribute. -/
def serializeId (ident : Str) : Str :=
  if ident = [] then [] else attrS ("id").toList ident

/-- `Shape::toString()`: stroke attributes, optional style, optional
visibility. -/
def shapeAttrs (b : ShapeBase) (l : Layout) : Str :=
  b.stroke.render l ++
  (if b.style ≠ [] then attrS ("style").toList b.style else []) ++
  (if b.visible then [] else attrS ("visibility").toList ("hidden").toList)

/-- `SurfaceShape::toString()`: shape attributes followed by fill. -/
def surfaceAttrs (b : ShapeBase) (f : Fill) (l : Layout) : Str :=
  shapeAttrs b l ++ f.render l

/-- One `marker-...="url(#id)"` fragment of `Markerable::toString()`. -/
def markerRefFrag (tag : Str) (om : Option Marker) : Str :=
  match om with
  | some m => if m.valid then tag ++ ("=\"url(#").toList ++ m.id ++ (")\" ").toList else []
  | none => []

/-- `Markerable::toString()`: the start/mid/end marker references. -/
def markerableStr (ms mm me : Option Marker) : Str :=
  markerRefFrag ("marker-start").toList ms ++
  markerRefFrag ("marker-mid").toList mm ++
  markerRefFrag ("marker-end").toList me

/-- The `x,y ` coordinate list rendering used by polygons, paths and
polylines, over already-translated coordinate pairs. -/
def coordList (pts : List (Rat × Rat)) : Str :=
  strJoin (pts.map fun q => qstr q.1 ++ (",").toList ++ qstr q.2 ++ (" ").toList)

/-- The translated coordinate pairs of a point list under a layout. -/
def pointPairs (pts : List Point) (l : Layout) : List (Rat × Rat) :=
  pts.map fun p => (translateX p.x l, translateY p.y l)

/-- `Circle::toString()` with the two translated center coordinates as
parameters. -/
def circleCore (c : CircleData) (l : Layout) (cx cy : Rat) : Str :=
  elemStart ("circle").toList false ++ serializeId c.base.id ++
  attrQ ("cx").toList cx ++ attrQ ("cy").toList cy ++
  attrQ ("r").toList (translateScale c.radius l) ++
  surfaceAttrs c.base c.fill l ++ emptyElemEnd

/-- `Circle::toString()`. -/
def circleToString (c : CircleData) (l : Layout) : Str :=
  circleCore c l (translateX c.center.x l) (translateY c.center.y l)

/-- `Elipse::toString()` with translated center coordinates as parameters. -/
def elipseCore (e : ElipseData) (l : Layout) (cx cy : Rat) : Str :=
  elemStart ("ellipse").toList false ++ serializeId e.base.id ++
  attrQ ("cx").toList cx ++ attrQ ("cy").toList cy ++
  attrQ ("rx").toList (translateScale e.radius_width l) ++
  attrQ ("ry").toList (translateScale e.radius_height l) ++
  surfaceAttrs e.base e.fill l ++ emptyElemEnd

/-- `Elipse::toString()`. -/
def elipseToString (e : ElipseData) (l : Layout) : Str :=
  elipseCore e l (translateX e.center.x l) (translateY e.center.y l)

/-- `Rectangle::toString()` with translated corner coordinates as
parameters. -/
def rectCore (r : RectData) (l : Layout) (x y : Rat) : Str :=
  elemStart ("rect").toList false ++ serializeId r.base.id ++
  attrQ ("x").toList x ++ attrQ ("y").toList y ++
  (if r.rx > 0 ∨ r.ry > 0 then attrQ ("rx").toList r.rx ++ attrQ ("ry").toList r.ry else []) ++
  attrQ ("width").toList (translateScale r.width l) ++
  attrQ ("height").toList (translateScale r.height l) ++
  surfaceAttrs r.base r.fill l ++ emptyElemEnd

/-- `Rectangle::toString()`. -/
def rectToString (r : RectData) (l : Layout) : Str :=
  rectCore r l (translateX r.edge.x l) (translateY r.edge.y l)

/-- `Line::toString()` with translated end-point coordinates as
parameters. -/
def lineCore (d : LineData) (l : Layout) (x1 y1 x2 y2 : Rat) : Str :=
  elemStart ("line").toList false ++ serializeId d.base.id ++
  attrQ ("x1").toList x1 ++ attrQ ("y1").toList y1 ++
  attrQ ("x2").toList x2 ++ attrQ ("y2").toList y2 ++
  shapeAttrs d.base l ++ markerableStr d.marker_start d.marker_mid d.marker_end ++
  emptyElemEnd

/-- `Line::toString()`. -/
def lineToString (d : LineData) (l : Layout) : Str :=
  lineCore d l (translateX d.start_point.x l) (translateY d.start_point.y l)
    (translateX d.end_point.x l) (translateY d.end_point.y l)

/-- `Polygon::toString()` with translated coordinate pairs as parameters. -/
def polygonCore (pg : PolygonData) (l : Layout) (pts : List (Rat × Rat)) : Str :=
  elemStart ("polygon").toList false ++ serializeId pg.base.id ++
  ("points=\"").toList ++ coordList pts ++ ("\" ").toList ++
  surfaceAttrs pg.base pg.fill l ++ emptyElemEnd

/-- `Polygon::toString()`. -/
def polygonToString (pg : PolygonData) (l : Layout) : Str :=
  polygonCore pg l (pointPairs pg.points l)

/-- The `d` attribute body of `Path::toString()`: every non-empty subpath
as a closed contour. -/
def pathSubStr (subs : List (List (Rat × Rat))) : Str :=
  strJoin (subs.map fun sub =>
    if sub.isEmpty then [] else ("M").toList ++ coordList sub ++ ("z ").toList)

/-- `Path::toString()` with translated coordinate pairs as parameters. -/
def pathCore (pa : PathData) (l : Layout) (subs : List (List (Rat × Rat))) : Str :=
  elemStart ("path").toList false ++ serializeId pa.base.id ++
  ("d=\"").toList ++ pathSubStr subs ++ ("\" ").toList ++
  ("fill-rule=\"evenodd\" ").toList ++
  surfaceAttrs pa.base pa.fill l ++ emptyElemEnd

/-- `Path::toString()`. -/
def pathToString (pa : PathData) (l : Layout) : Str :=
  pathCore pa l (pa.paths.map fun sub => pointPairs sub l)

/-- `Polyline::toString()` with translated coordinate pairs as
parameters; always emits `fill="none"`. -/
def polyCore (pl : Poly) (l : Layout) (pts : List (Rat × Rat)) : Str :=
  elemStart ("polyline").toList false ++ serializeId pl.base.id ++
  attrS ("fill").toList ("none").toList ++
  ("points=\"").toList ++ coordList pts ++ ("\" ").toList ++
  shapeAttrs pl.base l ++ markerableStr pl.marker_start pl.marker_mid pl.marker_end ++
  emptyElemEnd

/-- `Polyline::toString()`. -/
def polyToString (pl : Poly) (l : Layout) : Str :=
  polyCore pl l (pointPairs pl.points l)

/-- The `text-anchor` attribute fragment of `Text::toString()`. -/
def anchorAttr : TextAnchor → Str
  | .Start => attrS ("text-anchor").toList ("start").toList
  | .Middle => attrS ("text-anchor").toList ("middle").toList
  | .End => attrS ("text-anchor").toList ("end").toList
  | .None => []

/-- The `dominant-baseline` attribute fragment of `Text::toString()`. -/
def baselineAttr : DominantBaseline → Str
  | .TextBottom => attrS ("dominant-baseline").toList ("text-bottom").toList
  | .Alphabetic => attrS ("dominant-baseline").toList ("alphabetic").toList
  | .Ideographic => attrS ("dominant-baseline").toList ("ideographic").toList
  | .Middle => attrS ("dominant-baseline").toList ("middle").toList
  | .Central => attrS ("dominant-baseline").toList ("central").toList
  | .Mathematical => attrS ("dominant-baseline").toList ("mathematical").toList
  | .Hanging => attrS ("dominant-baseline").toList ("hanging").toList
  | .TextTop => attrS ("dominant-baseline").toList ("text-top").toList
  | .None => []

/-- `Text::toString()` with translated origin coordinates as parameters. -/
def textCore (t : TextData) (l : Layout) (x y : Rat) : Str :=
  elemStart ("text").toList false ++ serializeId t.base.id ++
  anchorAttr t.anchor ++ baselineAttr t.baseline ++
  attrQ ("x").toList x ++ attrQ ("y").toList y ++
  surfaceAttrs t.base t.fill l ++ t.font.render l ++
  (">").toList ++ t.content ++ elemEnd ("text").toList

/-- `Text::toString()`. -/
def textToString (t : TextData) (l : Layout) : Str :=
  textCore t l (translateX t.origin.x l) (translateY t.origin.y l)

/-- `getMinPoint()` of the source. -/
def getMinPoint : List Point → Option Point
  | [] => none
  | p :: ps => some (ps.foldl (fun acc q => ⟨min acc.x q.x, min acc.y q.y⟩) p)

/-- `getMaxPoint()` of the source. -/
def getMaxPoint : List Point → Option Point
  | [] => none
  | p :: ps => some (ps.foldl (fun acc q => ⟨max acc.x q.x, max acc.y q.y⟩) p)

/-- `Polyline::offset()`. -/
def offsetPoly (pl : Poly) (d : Point) : Poly :=
  ⟨pl.base, pl.points.map fun p => ⟨p.x + d.x, p.y + d.y⟩,
    pl.marker_start, pl.marker_mid, pl.marker_end⟩

/-- `LineChart::getDimensions()`: the bounding box across all polylines'
points.  `none` models the thrown `svg::optional` exception (no polyline,
or a polyline without points, which cannot occur for charts built through
the insertion operator). -/
def getDimensions (pls : List Poly) : Option Dimensions :=
  match pls with
  | [] => none
  | p0 :: _ => do
      let mn0 ← getMinPoint p0.points
      let mx0 ← getMaxPoint p0.points
      let r ← pls.foldl (fun acc p => do
          let (mn, mx) ← acc
          let pmn ← getMinPoint p.points
          let pmx ← getMaxPoint p.points
          pure ((⟨min mn.x pmn.x, min mn.y pmn.y⟩ : Point),
                (⟨max mx.x pmx.x, max mx.y pmx.y⟩ : Point)))
        (pure (mn0, mx0))
      pure ⟨r.2.x - r.1.x, r.2.y - r.1.y⟩

/-- The vertex circles created by `LineChart::polylineToString()`: one
circle per (already margin-shifted) point, constructed with *diameter*
`bbox_height / 30` and black fill. -/
def vertexCircles (bboxHeight : Rat) (pts : List Point) : List CircleData :=
  pts.map fun p => circleMake p (bboxHeight / 30) ⟨blackColor, 1⟩ defaultStroke

/-- `LineChart::polylineToString()`: the margin-shifted polyline followed
by its vertex circles. -/
def chartPolylineToString (bboxHeight : Rat) (margin : Dimensions) (pl : Poly)
    (l : Layout) : Str :=
  let shifted := offsetPoly pl ⟨margin.width, margin.height⟩
  polyToString shifted l ++
    strJoin ((vertexCircles bboxHeight shifted.points).map fun c => circleToString c l)

/-- The axis polyline of `LineChart::axisString()`: a `Polyline` with the
axis stroke and the three L-shaped corner points. -/
def axisPoly (st : Stroke) (margin : Dimensions) (w h : Rat) : Poly :=
  ⟨{ defaultBase with stroke := st },
    [⟨margin.width, margin.height + h⟩, ⟨margin.width, margin.height⟩,
     ⟨margin.width + w, margin.height⟩], none, none, none⟩

/-- `LineChart::axisString()` for a known bounding box: the axis is 10%
wider and higher than the data extent. -/
def axisString (st : Stroke) (margin : Dimensions) (dims : Dimensions)
    (l : Layout) : Str :=
  polyToString (axisPoly st margin (dims.width * (11 / 10)) (dims.height * (11 / 10))) l

/-- `LineChart::toString()`: empty when no polylines were collected,
otherwise every polyline (with vertex circles) followed by the axis.  The
bounding box is computed once and passed down (the source recomputes the
same value inside each call). -/
def chartToString (lc : ChartData) (l : Layout) : Str :=
  if lc.polylines.isEmpty then []
  else
    match getDimensions lc.polylines with
    | none => []
    | some dims =>
        strJoin (lc.polylines.map fun pl =>
          chartPolylineToString dims.height lc.margin pl l) ++
        axisString lc.axis_stroke lc.margin dims l

/-- `Serializeable::toString()` over the whole shape hierarchy. -/
def shapeToString : ShapeV → Layout → Str
  | .circle c, l => circleToString c l
  | .elipse e, l => elipseToString e l
  | .rect r, l => rectToString r l
  | .line d, l => lineToString d l
  | .polygon pg, l => polygonToString pg l
  | .path pa, l => pathToString pa l
  | .polyline pl, l => polyToString pl l
  | .text t, l => textToString t l
  | .chart lc, l => chartToString lc l

/-- `LineChart::operator<<`: empty polylines are ignored. -/
def chartAddPolyline (lc : ChartData) (pl : Poly) : ChartData :=
  if pl.points.isEmpty then lc
  else ⟨lc.base, lc.axis_stroke, lc.margin, lc.polylines ++ [pl]⟩

/-- `Shape::offset()` over the whole hierarchy: translates all owned
geometry by the delta (markers are referenced, not owned, and unchanged). -/
def offsetShape : ShapeV → Point → ShapeV
  | .circle c, d => .circle ⟨c.base, c.fill, ⟨c.center.x + d.x, c.center.y + d.y⟩, c.radius⟩
  | .elipse e, d => .elipse ⟨e.base, e.fill, ⟨e.center.x + d.x, e.center.y + d.y⟩,
      e.radius_width, e.radius_height⟩
  | .rect r, d => .rect ⟨r.base, r.fill, ⟨r.edge.x + d.x, r.edge.y + d.y⟩,
      r.width, r.height, r.rx, r.ry⟩
  | .line dt, d => .line ⟨dt.base, ⟨dt.start_point.x + d.x, dt.start_point.y + d.y⟩,
      ⟨dt.end_point.x + d.x, dt.end_point.y + d.y⟩,
      dt.marker_start, dt.marker_mid, dt.marker_end⟩
  | .polygon pg, d => .polygon ⟨pg.base, pg.fill, pg.points.map fun p => ⟨p.x + d.x, p.y + d.y⟩⟩
  | .path pa, d => .path ⟨pa.base, pa.fill,
      pa.paths.map fun sub => sub.map fun p => ⟨p.x + d.x, p.y + d.y⟩⟩
  | .polyline pl, d => .polyline (offsetPoly pl d)
  | .text t, d => .text ⟨t.base, t.fill, ⟨t.origin.x + d.x, t.origin.y + d.y⟩,
      t.content, t.font, t.anchor, t.baseline⟩
  | .chart lc, d => .chart ⟨lc.base, lc.axis_stroke, lc.margin,
      lc.polylines.map fun pl => offsetPoly pl d⟩

/-- `Shape::setStroke()` over the whole hierarchy. -/
def withStroke : ShapeV → Stroke → ShapeV
  | .circle c, st => .circle ⟨{ c.base with stroke := st }, c.fill, c.center, c.radius⟩
  | .elipse e, st => .elipse ⟨{ e.base with stroke := st }, e.fill, e.center,
      e.radius_width, e.radius_height⟩
  | .rect r, st => .rect ⟨{ r.base with stroke := st }, r.fill, r.edge,
      r.width, r.height, r.rx, r.ry⟩
  | .line dt, st => .line ⟨{ dt.base with stroke := st }, dt.start_point, dt.end_point,
      dt.marker_start, dt.marker_mid, dt.marker_end⟩
  | .polygon pg, st => .polygon ⟨{ pg.base with stroke := st }, pg.fill, pg.points⟩
  | .path pa, st => .path ⟨{ pa.base with stroke := st }, pa.fill, pa.paths⟩
  | .polyline pl, st => .polyline ⟨{ pl.base with stroke := st }, pl.points,
      pl.marker_start, pl.marker_mid, pl.marker_end⟩
  | .text t, st => .text ⟨{ t.base with stroke := st }, t.fill, t.origin,
      t.content, t.font, t.anchor, t.baseline⟩
  | .chart lc, st => .chart ⟨{ lc.base with stroke := st }, lc.axis_stroke, lc.margin,
      lc.polylines⟩

/-- Stable insertion sort: `keep y x` says that a `y` already placed stays
in front of the newly inserted `x`. -/
def insertKeep {α : Type} (keep : α → α → Bool) (x : α) : List α → List α
  | [] => [x]
  | y :: ys => if keep y x then y :: insertKeep keep x ys else x :: y :: ys

/-- Sort, processing the input from the front; with a strict `keep`
comparison an earlier element stays in front of equal later ones. -/
def isortBy {α : Type} (keep : α → α → Bool) : List α → List α
  | [] => []
  | x :: xs => insertKeep keep x (isortBy keep xs)

/-- The stable ascending sort by `z` performed by
`Document::writeToStream()` (`std::stable_sort` with `a->z < b->z`). -/
def sortZ (l : List ShapeV) : List ShapeV :=
  isortBy (fun y x => decide (y.z < x.z)) l

/-- The `std::sort` over serialized shape strings used by
`Marker::operator!=`. -/
def sortStrs (l : List Str) : List Str := isortBy (fun y x => strLt y x) l

/-- `Marker::operator!=`: visual inequality ignoring the identifier —
different shape count or geometry (approximately compared), or different
order-independent sorted serialized shape lists (serialized against the
default `DUMMY` layout). -/
def markerNe (a b : Marker) : Bool :=
  if a.shapes.length != b.shapes.length || !(qeq a.marker_width b.marker_width)
      || !(qeq a.ref_x b.ref_x) || !(qeq a.marker_height b.marker_height)
      || !(qeq a.ref_y b.ref_y) then true
  else
    if sortStrs (a.shapes.map fun s => shapeToString s defaultLayout)
        = sortStrs (b.shapes.map fun s => shapeToString s defaultLayout) then false
    else true

/-- The `UNCHANGED` layout of `Marker::toString()`: default dimensions
`Dimensions()` (0, 0), `TopLeft` origin, scale 1, no offset — the identity
transform. -/
def unchangedLayout : Layout := ⟨⟨0, 0⟩, 1, Origin.TopLeft, ⟨0, 0⟩⟩

/-- The element emitted by `Marker::toString()` in the valid case. -/
def markerRender (m : Marker) : Str :=
  ("\t").toList ++ elemStart ("marker").toList false ++ serializeId m.id ++
  attrQ ("markerWidth").toList m.marker_width ++
  attrQ ("markerHeight").toList m.marker_height ++
  attrQ ("refX").toList m.ref_x ++ attrQ ("refY").toList m.ref_y ++
  attrS ("orient").toList m.orient ++ (">\n").toList ++
  strJoin (List.intersperse ("\n").toList
    (m.shapes.map fun s => ("\t\t").toList ++ shapeToString s unchangedLayout)) ++
  ("\t\t").toList ++ elemEnd ("marker").toList

/-- `Marker::toString()`: raises (`std::invalid_argument`) for an empty
identifier, otherwise returns the serialized element. -/
def markerToString (m : Marker) (_l : Layout) : Except Str Str :=
  if m.id = [] then
    .error ("svg::Marker::toString() requires a non-empty ID to refer to that marker.").toList
  else
    .ok (if m.valid then markerRender m else [])

/-- Whether an `Except` result is an error. -/
def isErr {ε α : Type} : Except ε α → Bool
  | .error _ => true
  | .ok _ => false

/-- Insertion into the id-ordered `MarkerSet` (`std::set` with
`compareMarker`): on an identifier clash the existing element is kept. -/
def msInsert (m : Marker) : List Marker → List Marker
  | [] => [m]
  | x :: xs =>
      if strLt m.id x.id then m :: x :: xs
      else if strLt x.id m.id then x :: msInsert m xs
      else x :: xs

/-- Insertion of an optional marker reference, only when present and
valid, as in `Markerable::getUsedMarkers()`. -/
def optInsert (om : Option Marker) (s : List Marker) : List Marker :=
  match om with
  | some m => if m.valid then msInsert m s else s
  | none => s

/-- `Markerable::getUsedMarkers()`: the id-ordered set of the valid
start/mid/end markers (inserted in that order; on an id clash the first
inserted wins). -/
def getUsedMarkers (ms mm me : Option Marker) : List Marker :=
  optInsert me (optInsert mm (optInsert ms []))

/-- The used-marker set of a body node: non-empty only for the
`Markerable` shapes `Line` and `Polyline`. -/
def nodeMarkers : ShapeV → List Marker
  | .line d => getUsedMarkers d.marker_start d.marker_mid d.marker_end
  | .polyline pl => getUsedMarkers pl.marker_start pl.marker_mid pl.marker_end
  | _ => []

/-- One valid marker slot as a (possibly empty) one-element list. -/
def validSlot (om : Option Marker) : List Marker :=
  match om with
  | some m => if m.valid then [m] else []
  | none => []

/-- The markers a body node *references* (those for which
`Markerable::toString()` emits a `url(#id)` attribute), in slot order and
without deduplication. -/
def slotMarkers : ShapeV → List Marker
  | .line d => validSlot d.marker_start ++ validSlot d.marker_mid ++ validSlot d.marker_end
  | .polyline pl => validSlot pl.marker_start ++ validSlot pl.marker_mid ++ validSlot pl.marker_end
  | _ => []

/-- `Animation` variants: `SetAttributeValue` and `AnimateMotion`. -/
inductive Animation where
  | setAttr (id href beg fill dur toVal attr_name attr_type : Str)
  | motion (id href beg fill dur : Str) (points : List Point)

/-- `Animation::toString()`: the shared attributes of both variants. -/
def animBase (ident href beg fill dur : Str) : Str :=
  serializeId ident ++ attrS ("href").toList (("#").toList ++ href) ++
  (if beg ≠ [] then attrS ("begin").toList beg else []) ++
  (if fill ≠ [] then attrS ("fill").toList fill else []) ++
  (if dur ≠ [] then attrS ("dur").toList dur else [])

/-- The continuation of the `AnimateMotion` path after the first point:
a blank separates consecutive points, each later point is an `L` segment. -/
def motionRest : List Point → Str
  | [] => []
  | p :: ps => (" L").toList ++ qstr p.x ++ (",").toList ++ qstr p.y ++ motionRest ps

/-- The quoted `path` value of `AnimateMotion::toString()`: `M` for the
first point, `L` for the rest, raw (untranslated) coordinates. -/
def motionBody : List Point → Str
  | [] => []
  | p :: ps => ("\"M").toList ++ qstr p.x ++ (",").toList ++ qstr p.y ++ motionRest ps

/-- `Animation::toString()` for both variants. -/
def animToString (a : Animation) (_l : Layout) : Str :=
  match a with
  | .setAttr ident href beg fill dur toVal attr_name attr_type =>
      elemStart ("set").toList false ++ animBase ident href beg fill dur ++
      attrS ("to").toList toVal ++ attrS ("attributeName").toList attr_name ++
      attrS ("attributeType").toList attr_type ++ emptyElemEnd
  | .motion ident href beg fill dur points =>
      elemStart ("animateMotion").toList false ++ animBase ident href beg fill dur ++
      ("path=").toList ++ motionBody points ++ ("\" ").toList ++ emptyElemEnd

/-- `Document`: layout, identifier, owned body and animation nodes, the
"needs sorting" flag and the stored output file name. -/
structure Document where
  layout : Layout
  id : Str
  body_nodes : List ShapeV
  needs_sorting : Bool
  animation_nodes : List Animation
  file_name : Str

/-- A fresh `Document(layout)`. -/
def emptyDoc (l : Layout) (ident : Str) : Document := ⟨l, ident, [], false, [], []⟩

/-- `Document::operator<<(Shape)`: clone and append; the sorting flag is
set once a shape with non-zero `z` is appended. -/
def Document.appendShape (d : Document) (s : ShapeV) : Document :=
  { d with body_nodes := d.body_nodes ++ [s],
           needs_sorting := d.needs_sorting || !(s.z == 0) }

/-- `Document::operator<<(Animation)`. -/
def Document.appendAnimation (d : Document) (a : Animation) : Document :=
  { d with animation_nodes := d.animation_nodes ++ [a] }

/-- `Document::isAnimated()`. -/
def Document.isAnimated (d : Document) : Bool := !d.animation_nodes.isEmpty

/-- A document built by appending a list of shapes to a fresh document. -/
def mkDoc (l : Layout) (ident : Str) (shapes : List ShapeV) : Document :=
  shapes.foldl Document.appendShape (emptyDoc l ident)

/-- The body order used by `Document::writeToStream()`: the stable
ascending sort by `z` when the sorting flag is set, the insertion order
otherwise. -/
def Document.finalOrder (d : Document) : List ShapeV :=
  if d.needs_sorting then sortZ d.body_nodes else d.body_nodes

/-- The collision diagnostics produced when inserting marker `i` with the
already-collected set `used`: one per previously collected marker with the
same identifier but different content. -/
def collideDiags (used : List Marker) (i : Marker) : List Str :=
  (used.filter fun j => decide (j.id = i.id) && markerNe i j).map fun _ => i.id

/-- One step of the marker collection loop: report collisions against the
current set, then insert. -/
def collectStep (acc : List Marker × List Str) (i : Marker) : List Marker × List Str :=
  (msInsert i acc.1, acc.2 ++ collideDiags acc.1 i)

/-- The marker collection of one body node. -/
def collectNode (acc : List Marker × List Str) (sv : ShapeV) : List Marker × List Str :=
  (nodeMarkers sv).foldl collectStep acc

/-- The marker collection phase of `Document::writeToStream()`: the
document-wide id-ordered marker set and the collision diagnostics, in
order. -/
def collectMarkers (nodes : List ShapeV) : List Marker × List Str :=
  nodes.foldl collectNode ([], [])

/-- The markup preamble written by `Document::writeToStream()`. -/
def docHeader (d : Document) : Str :=
  ("<?xml ").toList ++ attrS ("version").toList ("1.0").toList ++
  attrS ("standalone").toList ("no").toList ++ ("?>\n").toList ++
  ("<!-- Generator: svg-writer (https://github.com/CodeFinder2/svg-writer), Version: 1.0.0 -->\n").toList ++
  ("<!DOCTYPE svg PUBLIC \"-//W3C//DTD SVG 1.1//EN\" \"http://www.w3.org/Graphics/SVG/1.1/DTD/svg11.dtd\">\n<svg ").toList ++
  serializeId d.id ++
  attrOf ("width").toList (qstr d.layout.dimensions.width) ("px").toList ++
  attrOf ("height").toList (qstr d.layout.dimensions.height) ("px").toList ++
  attrS ("xmlns").toList ("http://www.w3.org/2000/svg").toList ++
  attrS ("version").toList ("1.1").toList ++ (">\n").toList

/-- The `<defs>` block: present only when markers were collected.  The
collected markers are all valid, so `Marker::toString()` cannot raise
here; the error branch is dead. -/
def defsSection (markers : List Marker) (l : Layout) : Str :=
  if markers.isEmpty then []
  else
    elemStart ("defs").toList true ++
    strJoin (markers.map fun m =>
      match markerToString m l with
      | .ok s => s
      | .error _ => []) ++
    ("\t").toList ++ elemEnd ("defs").toList

/-- `Document::writeToStream()`: sorts the body nodes in place (when
needed), collects markers and diagnostics, and emits preamble, defs block,
body nodes in final order, animation nodes, and the root close.  Returns
the output, the collision diagnostics and the mutated document. -/
def Document.write (d : Document) : Str × List Str × Document :=
  let body := d.finalOrder
  let md := collectMarkers body
  (docHeader d ++ defsSection md.1 d.layout ++
    strJoin (body.map fun s => shapeToString s d.layout) ++
    strJoin (d.animation_nodes.map fun a => animToString a d.layout) ++
    elemEnd ("svg").toList,
   md.2,
   { d with body_nodes := body })

/-- `Document::toString()`: the serialized output together with the
document state it leaves behind (the in-place sort is observable). -/
def Document.render (d : Document) : Str × Document :=
  ((d.write).1, (d.write).2.2)

/-- The file name computed by `Document::save()`: with `auto_append`, the
target extension (".html" for animated documents, ".svg" otherwise) is
appended unless the name already ends with it. -/
def saveName (animated : Bool) (filename : Str) (auto_append : Bool) : Str :=
  if auto_append then
    if animated then
      if endsWith filename (".html").toList then filename
      else filename ++ (".html").toList
    else
      if endsWith filename (".svg").toList then filename
      else filename ++ (".svg").toList
  else filename

/-- The file name `Document::save()` stores and writes to. -/
def Document.saveFileName (d : Document) (filename : Str) (auto_append : Bool) : Str :=
  saveName d.isAnimated filename auto_append

/-- Translation of a list of already-translated output coordinate pairs
by `(a, b)`. -/
def shiftPairs (a b : Rat) (pts : List (Rat × Rat)) : List (Rat × Rat) :=
  pts.map fun q => (q.1 + a, q.2 + b)

/-- Modelled from the spec: one chart polyline of "serializing the shape
first and then translating every numeric coordinate in the output by
`(a, b)`" — the polyline's output coordinates and its vertex circles'
output center coordinates, all translated. -/
def chartPolylineShifted (a b bboxHeight : Rat) (margin : Dimensions) (pl : Poly)
    (l : Layout) : Str :=
  let shifted := offsetPoly pl ⟨margin.width, margin.height⟩
  polyCore shifted l (shiftPairs a b (pointPairs shifted.points l)) ++
    strJoin ((vertexCircles bboxHeight shifted.points).map fun c =>
      circleCore c l (translateX c.center.x l + a) (translateY c.center.y l + b))

/-- Modelled from the spec (testable property on `offset`): "serializing
the shape first and then translating every numeric coordinate in the
output" by `(a, b)` — the same serialization, with every positional output
coordinate (centers, corners, end points, vertices, text origins; not
radii, widths or other scale-only quantities) translated by `(a, b)`
after the layout transform. -/
def serializeThenTranslate (a b : Rat) : ShapeV → Layout → Str
  | .circle c, l =>
      circleCore c l (translateX c.center.x l + a) (translateY c.center.y l + b)
  | .elipse e, l =>
      elipseCore e l (translateX e.center.x l + a) (translateY e.center.y l + b)
  | .rect r, l =>
      rectCore r l (translateX r.edge.x l + a) (translateY r.edge.y l + b)
  | .line d, l =>
      lineCore d l (translateX d.start_point.x l + a) (translateY d.start_point.y l + b)
        (translateX d.end_point.x l + a) (translateY d.end_point.y l + b)
  | .polygon pg, l => polygonCore pg l (shiftPairs a b (pointPairs pg.points l))
  | .path pa, l => pathCore pa l (pa.paths.map fun sub => shiftPairs a b (pointPairs sub l))
  | .polyline pl, l => polyCore pl l (shiftPairs a b (pointPairs pl.points l))
  | .text t, l =>
      textCore t l (translateX t.origin.x l + a) (translateY t.origin.y l + b)
  | .chart lc, l =>
      if lc.polylines.isEmpty then []
      else
        match getDimensions lc.polylines with
        | none => []
        | some dims =>
            strJoin (lc.polylines.map fun pl =>
              chartPolylineShifted a b dims.height lc.margin pl l) ++
            (let ap := axisPoly lc.axis_stroke lc.margin (dims.width * (11 / 10))
              (dims.height * (11 / 10));
             polyCore ap l (shiftPairs a b (pointPairs ap.points l)))

/-- The direction in which an increase of a logical x moves the native x:
`-1` for the "right" origins, `+1` otherwise. -/
def sgnX (l : Layout) : Rat :=
  if l.origin = Origin.BottomRight ∨ l.origin = Origin.TopRight then -1 else 1

/-- The direction in which an increase of a logical y moves the native y:
`-1` for the "bottom" origins, `+1` otherwise. -/
def sgnY (l : Layout) : Rat :=
  if l.origin = Origin.BottomLeft ∨ l.origin = Origin.BottomRight then -1 else 1

/-- The diagnostics-only run of the marker collection loop over the flat
sequence of collected markers. -/
def runDiags : List Marker → List Marker → List Str
  | [], _ => []
  | i :: rest, u => collideDiags u i ++ runDiags rest (msInsert i u)

/-- The marker collection as a fold over the flat marker sequence. -/
def processSeq (s : List Marker) (acc : List Marker × List Str) : List Marker × List Str :=
  s.foldl collectStep acc

/-- The flat sequence of markers collected from a list of body nodes, in
collection order. -/
def seqOf : List ShapeV → List Marker
  | [] => []
  | n :: ns => nodeMarkers n ++ seqOf ns

/-- The flat sequence of markers *referenced* by a list of body nodes
(those emitted as `url(#id)` attributes), without deduplication. -/
def refSeq : List ShapeV → List Marker
  | [] => []
  | n :: ns => slotMarkers n ++ refSeq ns

/-- The strict ordering on collected markers used by the marker set. -/
def idLt (a b : Marker) : Prop := strLt a.id b.id = true

/-- A circle body node with a given z order and identifier, used by the
concrete z-order example. -/
def zCirc (zv : Int) (ident : Str) : ShapeV :=
  .circle ⟨⟨defaultStroke, zv, ident, [], true⟩, defaultFill, ⟨0, 0⟩, 5⟩

/-- The shapes of the concrete z-order example: z values 2, 0, 1, 0, -1 in
insertion order, distinguished by their identifiers. -/
def zDemoShapes : List ShapeV :=
  [zCirc 2 ("a").toList, zCirc 0 ("b").toList, zCirc 1 ("c").toList,
   zCirc 0 ("d").toList, zCirc (-1) ("e").toList]

/-- A plain circle at the origin with all-default styling. -/
def demoCircle : ShapeV := .circle ⟨defaultBase, defaultFill, ⟨0, 0⟩, 5⟩

/-- A marker with identifier "m" containing one circle at the origin. -/
def demoMarkerA : Marker :=
  .mk ("m").toList 1 1 0 0 ("auto").toList [.circle ⟨defaultBase, defaultFill, ⟨0, 0⟩, 2⟩]

/-- A marker with the same identifier "m" but a different contained
circle. -/
def demoMarkerB : Marker :=
  .mk ("m").toList 1 1 0 0 ("auto").toList [.circle ⟨defaultBase, defaultFill, ⟨9, 9⟩, 2⟩]

/-- A line referencing `demoMarkerA` as start marker and `demoMarkerB` as
end marker: two different markers with the same identifier on one node. -/
def demoLine : ShapeV :=
  .line ⟨defaultBase, ⟨0, 0⟩, ⟨1, 1⟩, some demoMarkerA, none, some demoMarkerB⟩

/-- A demo animation node. -/
def demoAnimation : Animation :=
  .setAttr [] ("s1").toList [] [] [] ("0").toList ("visibility").toList ("CSS").toList

/-- A demo document containing one animation and no shapes. -/
def demoAnimatedDoc : Document :=
  (emptyDoc defaultLayout []).appendAnimation demoAnimation

/-- A polyline whose points span a bounding box of height 60. -/
def demoPolyline : Poly := ⟨defaultBase, [⟨0, 0⟩, ⟨0, 60⟩], none, none, none⟩

/-! Helper lemmas. -/

theorem infix_extend_left {x l₂ : Str} (l₁ : Str) (h : x <:+: l₂) : x <:+: l₁ ++ l₂ := by
  rcases h with ⟨s, t, hst⟩
  exact ⟨l₁ ++ s, t, by rw [← hst]; simp [List.append_assoc]⟩

theorem infix_extend_right {x l₁ : Str} (l₂ : Str) (h : x <:+: l₁) : x <:+: l₁ ++ l₂ := by
  rcases h with ⟨s, t, hst⟩
  exact ⟨s, t ++ l₂, by rw [← hst]; simp [List.append_assoc]⟩

/-! ### C1 -/

/-- C1: `translateX` returns `layout.width - (x + origin_offset.x) * scale`
for the right origins and `(origin_offset.x + x) * scale` otherwise;
`translateY` symmetrically flips for the bottom origins against
`layout.height`; and translating the logical point (0, 0) under origin
`BottomLeft` with dimensions (400, 300), scale 1 and offset (0, 0) yields
the native coordinates (0, 300). -/
theorem translate_origin_formulas :
    (∀ (l : Layout) (x y : Rat),
      translateX x l =
        (if l.origin = Origin.TopRight ∨ l.origin = Origin.BottomRight then
          l.dimensions.width - (x + l.origin_offset.x) * l.scale
        else
          (l.origin_offset.x + x) * l.scale) ∧
      translateY y l =
        (if l.origin = Origin.BottomLeft ∨ l.origin = Origin.BottomRight then
          l.dimensions.height - (y + l.origin_offset.y) * l.scale
        else
          (l.origin_offset.y + y) * l.scale)) ∧
    translateX 0 ⟨⟨400, 300⟩, 1, Origin.BottomLeft, ⟨0, 0⟩⟩ = 0 ∧
    translateY 0 ⟨⟨400, 300⟩, 1, Origin.BottomLeft, ⟨0, 0⟩⟩ = 300 := by
  refine ⟨fun l x y => ⟨?_, ?_⟩, ?_, ?_⟩
  · rcases l with ⟨dims, sc, o, off⟩
    cases o <;> simp [translateX]
  · rcases l with ⟨dims, sc, o, off⟩
    cases o <;> simp [translateY]
  · norm_num [translateX]
    all_goals decide
  · norm_num [translateY]

/-! ### C5 -/

/-- C5: `Marker::toString` raises an error if and only if the marker's
identifier is empty; with a non-empty identifier it returns a string
without raising. -/
theorem marker_toString_error_iff :
    ∀ (m : Marker) (l : Layout),
      (isErr (markerToString m l) = true ↔ m.id = []) ∧
      (m.id ≠ [] → ∃ s, markerToString m l = .ok s) := by
  intro m l
  unfold markerToString
  by_cases h : m.id = [] <;> simp [h, isErr]

/-- Witness for C5: a marker with the non-empty identifier "m" serializes
without an error. -/
theorem marker_toString_error_iff_witness :
    ∃ s, markerToString (.mk ("m").toList 1 1 0 0 ("auto").toList []) defaultLayout = .ok s :=
  (marker_toString_error_iff (.mk ("m").toList 1 1 0 0 ("auto").toList []) defaultLayout).2
    (by decide)

/-! ### C4 -/

/-- C4: a `Stroke` with negative width (including the default width -1)
serializes to the empty string, and consequently every shape variant
carrying such a stroke serializes exactly as if it carried the default
"no stroke" sentinel — the stroke contributes no attribute to the
output. -/
theorem negative_stroke_silent :
    (∀ (st : Stroke) (l : Layout), st.width < 0 → st.render l = []) ∧
    (∀ (sv : ShapeV) (l : Layout), sv.base.stroke.width < 0 →
      shapeToString sv l = shapeToString (withStroke sv defaultStroke) l) := by
  have h1 : ∀ (st : Stroke) (l : Layout), st.width < 0 → st.render l = [] := by
    intro st l h
    unfold Stroke.render
    simp [h]
  refine ⟨h1, ?_⟩
  have hd : (defaultStroke).width < 0 := by norm_num [defaultStroke]
  have hb : ∀ (b : ShapeBase) (l : Layout), b.stroke.width < 0 →
      shapeAttrs b l = shapeAttrs { b with stroke := defaultStroke } l := by
    intro b l h0
    unfold shapeAttrs
    rw [h1 _ _ h0, h1 _ _ hd]
  intro sv l h
  cases sv with
  | circle c =>
      simp only [ShapeV.base] at h
      simp only [shapeToString, withStroke, circleToString, circleCore, surfaceAttrs]
      rw [hb _ _ h]
  | elipse e =>
      simp only [ShapeV.base] at h
      simp only [shapeToString, withStroke, elipseToString, elipseCore, surfaceAttrs]
      rw [hb _ _ h]
  | rect r =>
      simp only [ShapeV.base] at h
      simp only [shapeToString, withStroke, rectToString, rectCore, surfaceAttrs]
      rw [hb _ _ h]
  | line d =>
      rcases d with ⟨b, sp, ep, ms, mm, me⟩
      simp only [ShapeV.base, LineData.base] at h
      simp only [shapeToString, withStroke, lineToString, lineCore, LineData.base,
        LineData.start_point, LineData.end_point, LineData.marker_start,
        LineData.marker_mid, LineData.marker_end]
      rw [hb _ _ h]
  | polygon pg =>
      simp only [ShapeV.base] at h
      simp only [shapeToString, withStroke, polygonToString, polygonCore, surfaceAttrs]
      rw [hb _ _ h]
  | path pa =>
      simp only [ShapeV.base] at h
      simp only [shapeToString, withStroke, pathToString, pathCore, surfaceAttrs]
      rw [hb _ _ h]
  | polyline pl =>
      rcases pl with ⟨b, pts, ms, mm, me⟩
      simp only [ShapeV.base, Poly.base] at h
      simp only [shapeToString, withStroke, polyToString, polyCore, Poly.base,
        Poly.points, Poly.marker_start, Poly.marker_mid, Poly.marker_end]
      rw [hb _ _ h]
  | text t =>
      simp only [ShapeV.base] at h
      simp only [shapeToString, withStroke, textToString, textCore, surfaceAttrs]
      rw [hb _ _ h]
  | chart lc =>
      rfl

/-- Witness for C4: the default stroke renders empty, and the demo circle
(which carries the default, negative-width stroke) serializes identically
with its stroke replaced. -/
theorem negative_stroke_silent_witness :
    Stroke.render defaultStroke defaultLayout = [] ∧
    shapeToString demoCircle defaultLayout =
      shapeToString (withStroke demoCircle defaultStroke) defaultLayout :=
  ⟨negative_stroke_silent.1 defaultStroke defaultLayout (by norm_num [defaultStroke]),
   negative_stroke_silent.2 demoCircle defaultLayout
     (by norm_num [demoCircle, ShapeV.base, defaultBase, defaultStroke])⟩

/-! ### C3 -/

/-- C3 counterexample: on a document containing one animation,
`save("chart.svg")` appends a second extension — the resulting file name
is "chart.svg.html", not "chart.svg". -/
theorem save_extension_counterexample :
    demoAnimatedDoc.saveFileName ("chart.svg").toList true = ("chart.svg.html").toList ∧
    ("chart.svg.html").toList ≠ ("chart.svg").toList := by
  constructor
  · rfl
  · decide

/-- C3 amended: with `auto_append`, saving a document with no animations
yields a name ending in ".svg" and saving an animated document yields a
name ending in ".html"; `save("chart.svg")` leaves the name unchanged on a
document without animations, while on an animated document it appends
".html", yielding "chart.svg.html". -/
theorem save_extension_amended :
    ∀ (d : Document) (fn : Str),
      (d.isAnimated = false → (".svg").toList <:+ d.saveFileName fn true) ∧
      (d.isAnimated = true → (".html").toList <:+ d.saveFileName fn true) ∧
      (d.isAnimated = false →
        d.saveFileName ("chart.svg").toList true = ("chart.svg").toList) ∧
      (d.isAnimated = true →
        d.saveFileName ("chart.svg").toList true = ("chart.svg.html").toList) := by
  have hsuf : ∀ (v e : Str), endsWith v e = true → e <:+ v := by
    intro v e h
    unfold endsWith at h
    by_cases hl : v.length < e.length
    · simp [hl] at h
    · simp only [hl, if_false] at h
      exact List.isSuffixOf_iff_suffix.mp h
  have hmain : ∀ (fn e : Str), e <:+ (if endsWith fn e then fn else fn ++ e) := by
    intro fn e
    by_cases h : endsWith fn e = true
    · simp only [h, if_true]
      exact hsuf fn e h
    · simp only [h, if_false]
      exact List.suffix_append fn e
  intro d fn
  refine ⟨?_, ?_, ?_, ?_⟩ <;> intro h <;>
    simp only [Document.saveFileName, saveName, h, if_true, if_false, Bool.false_eq_true]
  · exact hmain fn (".svg").toList
  · exact hmain fn (".html").toList
  · decide
  · decide

/-- Witness for C3 amended: saving the animated demo document as "chart"
yields a name ending in ".html". -/
theorem save_extension_amended_witness :
    (".html").toList <:+ demoAnimatedDoc.saveFileName ("chart").toList true :=
  (save_extension_amended demoAnimatedDoc ("chart").toList).2.1 (by rfl)

/-! ### C10 -/

/-- C10: every `Polyline` serialization contains the attribute
`fill="none"`, regardless of its stroke, style or points. -/
theorem polyline_always_fill_none :
    ∀ (pl : Poly) (l : Layout), ("fill=\"none\"").toList <:+: polyToString pl l := by
  intro pl l
  unfold polyToString polyCore
  simp only [List.append_assoc]
  apply infix_extend_left
  apply infix_extend_left
  apply infix_extend_right
  exact ⟨[], (" ").toList, by decide⟩

/-! ### Sorting lemmas for C2 and C9 -/

theorem mem_insertKeep {α : Type} {keep : α → α → Bool} {x a : α} :
    ∀ {l : List α}, a ∈ insertKeep keep x l → a = x ∨ a ∈ l := by
  intro l
  induction l with
  | nil =>
      intro h
      simp only [insertKeep, List.mem_singleton] at h
      exact Or.inl h
  | cons y ys ih =>
      intro h
      simp only [insertKeep] at h
      by_cases hk : keep y x = true
      · rw [if_pos hk] at h
        rcases List.mem_cons.mp h with h1 | h1
        · exact Or.inr (List.mem_cons.mpr (Or.inl h1))
        · rcases ih h1 with h2 | h2
          · exact Or.inl h2
          · exact Or.inr (List.mem_cons.mpr (Or.inr h2))
      · rw [if_neg hk] at h
        rcases List.mem_cons.mp h with h1 | h1
        · exact Or.inl h1
        · exact Or.inr h1

theorem insertKeep_z_pairwise {x : ShapeV} {l : List ShapeV}
    (h : l.Pairwise (fun a b => a.z ≤ b.z)) :
    (insertKeep (fun y x => decide (y.z < x.z)) x l).Pairwise (fun a b => a.z ≤ b.z) := by
  induction l with
  | nil => simp [insertKeep]
  | cons y ys ih =>
      rw [List.pairwise_cons] at h
      obtain ⟨hy, hys⟩ := h
      by_cases hk : y.z < x.z
      · rw [insertKeep, if_pos (by simpa using hk)]
        rw [List.pairwise_cons]
        refine ⟨?_, ih hys⟩
        intro a ha
        rcases mem_insertKeep ha with rfl | ha'
        · exact le_of_lt hk
        · exact hy a ha'
      · rw [insertKeep, if_neg (by simpa using hk)]
        have hxy : x.z ≤ y.z := not_lt.mp hk
        rw [List.pairwise_cons]
        refine ⟨?_, List.pairwise_cons.mpr ⟨hy, hys⟩⟩
        intro a ha
        rcases List.mem_cons.mp ha with rfl | ha'
        · exact hxy
        · exact le_trans hxy (hy a ha')

theorem sortZ_pairwise (l : List ShapeV) :
    (sortZ l).Pairwise (fun a b => a.z ≤ b.z) := by
  induction l with
  | nil => simp [sortZ, isortBy]
  | cons x xs ih =>
      rw [sortZ, isortBy]
      exact insertKeep_z_pairwise ih

theorem insertKeep_z_filter (x : ShapeV) (k : Int) :
    ∀ (l : List ShapeV),
      (insertKeep (fun y x => decide (y.z < x.z)) x l).filter (fun n => decide (n.z = k)) =
      ((x :: l).filter (fun n => decide (n.z = k))) := by
  intro l
  induction l with
  | nil => rfl
  | cons y ys ih =>
      by_cases hk : y.z < x.z
      · rw [insertKeep, if_pos (by simpa using hk)]
        by_cases hy : y.z = k
        · have hx : ¬(x.z = k) := by omega
          simp [List.filter_cons, ih, hy, hx]
        · simp [List.filter_cons, ih, hy]
      · rw [insertKeep, if_neg (by simpa using hk)]

theorem sortZ_filter (k : Int) :
    ∀ (l : List ShapeV),
      (sortZ l).filter (fun n => decide (n.z = k)) = l.filter (fun n => decide (n.z = k)) := by
  intro l
  induction l with
  | nil => rfl
  | cons x xs ih =>
      rw [sortZ, isortBy, insertKeep_z_filter]
      simp only [List.filter_cons]
      rw [← sortZ, ih]

theorem sortZ_of_pairwise :
    ∀ {l : List ShapeV}, l.Pairwise (fun a b => a.z ≤ b.z) → sortZ l = l := by
  intro l
  induction l with
  | nil => intro _; rfl
  | cons x xs ih =>
      intro h
      rw [List.pairwise_cons] at h
      rw [sortZ, isortBy, ← sortZ, ih h.2]
      cases xs with
      | nil => rfl
      | cons y ys =>
          rw [insertKeep, if_neg]
          simp only [decide_eq_true_eq, not_lt]
          exact h.1 y (List.mem_cons_self y ys)

theorem pairwise_z_zero {l : List ShapeV} (h : ∀ s ∈ l, s.z = 0) :
    l.Pairwise (fun a b => a.z ≤ b.z) := by
  induction l with
  | nil => exact List.Pairwise.nil
  | cons x xs ih =>
      rw [List.pairwise_cons]
      refine ⟨?_, ih fun s hs => h s (List.mem_cons_of_mem x hs)⟩
      intro a ha
      rw [h x (List.mem_cons_self x xs), h a (List.mem_cons_of_mem x ha)]

theorem foldl_append_body :
    ∀ (shapes : List ShapeV) (d : Document),
      (shapes.foldl Document.appendShape d).body_nodes = d.body_nodes ++ shapes := by
  intro shapes
  induction shapes with
  | nil => intro d; simp
  | cons s ss ih =>
      intro d
      rw [List.foldl_cons, ih]
      simp [Document.appendShape]

theorem foldl_flag :
    ∀ (shapes : List ShapeV) (d : Document),
      (shapes.foldl Document.appendShape d).needs_sorting =
        (d.needs_sorting || shapes.any fun s => !(s.z == 0)) := by
  intro shapes
  induction shapes with
  | nil => intro d; simp
  | cons s ss ih =>
      intro d
      rw [List.foldl_cons, ih]
      simp [Document.appendShape, Bool.or_assoc]

/-! ### C2 -/

/-- C2: body nodes appear in the serialized output in stable ascending
order of `z` (ascending, with equal-`z` nodes keeping insertion order,
stated as: the output order is pairwise `z`-monotone and, for every `z`
value, the subsequence with that `z` equals the insertion-order
subsequence); appending only `z = 0` shapes leaves the output order equal
to the insertion order; and the concrete example with z values
[2, 0, 1, 0, -1] serializes in the order [-1, first 0, second 0, 1, 2]. -/
theorem zorder_stable_output :
    ∀ (l : Layout) (ident : Str) (shapes : List ShapeV),
      ((mkDoc l ident shapes).finalOrder).Pairwise (fun a b => a.z ≤ b.z) ∧
      (∀ k : Int, ((mkDoc l ident shapes).finalOrder).filter (fun n => decide (n.z = k)) =
        shapes.filter (fun n => decide (n.z = k))) ∧
      ((∀ s ∈ shapes, s.z = 0) → (mkDoc l ident shapes).finalOrder = shapes) ∧
      ((mkDoc defaultLayout [] zDemoShapes).finalOrder).map (fun s => s.base.id) =
        [("e").toList, ("b").toList, ("d").toList, ("c").toList, ("a").toList] := by
  intro l ident shapes
  have hbody : (mkDoc l ident shapes).body_nodes = shapes := by
    rw [mkDoc, foldl_append_body]
    simp [emptyDoc]
  have hflag : (mkDoc l ident shapes).needs_sorting = (shapes.any fun s => !(s.z == 0)) := by
    rw [mkDoc, foldl_flag]
    simp [emptyDoc]
  have hzero : (shapes.any fun s => !(s.z == 0)) = false ↔ ∀ s ∈ shapes, s.z = 0 := by
    rw [List.any_eq_false]
    constructor
    · intro h s hs
      have := h s hs
      simpa using this
    · intro h s hs
      simpa using h s hs
  refine ⟨?_, ?_, ?_, by rfl⟩
  · rw [Document.finalOrder, hbody, hflag]
    by_cases hf : (shapes.any fun s => !(s.z == 0)) = true
    · rw [if_pos hf]
      exact sortZ_pairwise shapes
    · rw [if_neg hf]
      exact pairwise_z_zero (hzero.mp (Bool.eq_false_iff.mpr hf))
  · intro k
    rw [Document.finalOrder, hbody, hflag]
    by_cases hf : (shapes.any fun s => !(s.z == 0)) = true
    · rw [if_pos hf]
      exact sortZ_filter k shapes
    · rw [if_neg hf]
  · intro hz
    rw [Document.finalOrder, hbody, hflag]
    rw [if_neg]
    rw [hzero.mpr hz]
    simp

/-- Witness for C2: a document of only `z = 0` shapes keeps insertion
order. -/
theorem zorder_stable_output_witness :
    (mkDoc defaultLayout [] [demoCircle, demoLine]).finalOrder = [demoCircle, demoLine] :=
  (zorder_stable_output defaultLayout [] [demoCircle, demoLine]).2.2.1 (by decide)

/-! ### C9 -/

theorem write_output_congr (d₁ d₂ : Document) (hl : d₁.layout = d₂.layout)
    (hi : d₁.id = d₂.id) (ha : d₁.animation_nodes = d₂.animation_nodes)
    (hf : d₁.finalOrder = d₂.finalOrder) : (d₁.write).1 = (d₂.write).1 := by
  unfold Document.write docHeader
  rw [hl, hi, ha, hf]

/-- C9: two consecutive `Document::toString` calls return equal strings —
the in-place stable re-sort performed by the first serialization does not
change the output of the second. -/
theorem document_toString_idempotent :
    ∀ d : Document, ((d.render).2).render.1 = (d.render).1 := by
  intro d
  have hfo : ((d.write).2.2).finalOrder = d.finalOrder := by
    show ({d with body_nodes := d.finalOrder} : Document).finalOrder = d.finalOrder
    rw [Document.finalOrder, Document.finalOrder]
    by_cases hf : d.needs_sorting = true
    · simp only [hf, if_true]
      exact sortZ_of_pairwise (sortZ_pairwise _)
    · simp [hf]
  exact write_output_congr _ _ rfl rfl rfl hfo

/-! ### C7 -/

theorem translateX_add (x dx : Rat) (l : Layout) :
    translateX (x + dx) l = translateX x l + sgnX l * dx * l.scale := by
  unfold translateX sgnX
  by_cases h : l.origin = Origin.BottomRight ∨ l.origin = Origin.TopRight
  · rw [if_pos h, if_pos h, if_pos h]
    ring
  · rw [if_neg h, if_neg h, if_neg h]
    ring

theorem translateY_add (y dy : Rat) (l : Layout) :
    translateY (y + dy) l = translateY y l + sgnY l * dy * l.scale := by
  unfold translateY sgnY
  by_cases h : l.origin = Origin.BottomLeft ∨ l.origin = Origin.BottomRight
  · rw [if_pos h, if_pos h, if_pos h]
    ring
  · rw [if_neg h, if_neg h, if_neg h]
    ring

theorem pointPairs_offset (pts : List Point) (dx dy : Rat) (l : Layout) :
    pointPairs (pts.map fun p => (⟨p.x + dx, p.y + dy⟩ : Point)) l =
      shiftPairs (sgnX l * dx * l.scale) (sgnY l * dy * l.scale) (pointPairs pts l) := by
  unfold pointPairs shiftPairs
  rw [List.map_map, List.map_map]
  apply List.map_congr_left
  intro p _
  simp only [Function.comp_apply]
  rw [translateX_add, translateY_add]

/-- C7 counterexample: offsetting the demo circle by (0, 1) under the
default layout (origin `BottomLeft`, scale 1) and serializing does not
equal serializing first and translating every output coordinate by the
layout-scaled delta (0·scale, 1·scale): the bottom-left origin flips the
y axis, so the output y moves by −1, not +1. -/
theorem offset_serialize_counterexample :
    shapeToString (offsetShape demoCircle ⟨0, 1⟩) defaultLayout ≠
      serializeThenTranslate (0 * (defaultLayout).scale) (1 * (defaultLayout).scale)
        demoCircle defaultLayout := by
  norm_num [shapeToString, offsetShape, circleToString, circleCore, serializeThenTranslate,
    translateX, translateY, translateScale, defaultLayout, demoCircle, defaultBase,
    defaultFill, defaultStroke, transparentColor, qstr, intStr, natStr, attrQ, attrOf,
    attrS, serializeId, surfaceAttrs, shapeAttrs, Stroke.render, Fill.render, Color.render,
    elemStart, emptyElemEnd, strJoin]
  all_goals decide

/-- C7 amended: for every primitive shape variant (every variant except
`LineChart`), offsetting by (dx, dy) and serializing equals serializing
first and translating every positional output coordinate by
(sgnX·dx·scale, sgnY·dy·scale), where the sign is −1 on the x axis for the
right origins and −1 on the y axis for the bottom origins.  (`LineChart`
is excluded: its axis is recomputed from the shift-invariant data extent,
so the axis coordinates do not move under `offset`.) -/
theorem offset_serialize_amended :
    ∀ (sv : ShapeV) (l : Layout) (dx dy : Rat), sv.isChart = false →
      shapeToString (offsetShape sv ⟨dx, dy⟩) l =
        serializeThenTranslate (sgnX l * dx * l.scale) (sgnY l * dy * l.scale) sv l := by
  intro sv l dx dy h
  cases sv with
  | circle c =>
      simp only [shapeToString, offsetShape, serializeThenTranslate, circleToString, circleCore]
      rw [translateX_add, translateY_add]
  | elipse e =>
      simp only [shapeToString, offsetShape, serializeThenTranslate, elipseToString, elipseCore]
      rw [translateX_add, translateY_add]
  | rect r =>
      simp only [shapeToString, offsetShape, serializeThenTranslate, rectToString, rectCore]
      rw [translateX_add, translateY_add]
  | line d =>
      rcases d with ⟨b, sp, ep, ms, mm, me⟩
      simp only [shapeToString, offsetShape, serializeThenTranslate, lineToString, lineCore,
        LineData.base, LineData.start_point, LineData.end_point, LineData.marker_start,
        LineData.marker_mid, LineData.marker_end]
      rw [translateX_add, translateY_add, translateX_add, translateY_add]
  | polygon pg =>
      simp only [shapeToString, offsetShape, serializeThenTranslate, polygonToString,
        polygonCore]
      rw [pointPairs_offset]
  | path pa =>
      simp only [shapeToString, offsetShape, serializeThenTranslate, pathToString, pathCore,
        List.map_map]
      have harg : (pa.paths.map fun sub =>
          pointPairs (sub.map fun p => (⟨p.x + dx, p.y + dy⟩ : Point)) l) =
          pa.paths.map fun sub =>
            shiftPairs (sgnX l * dx * l.scale) (sgnY l * dy * l.scale) (pointPairs sub l) := by
        apply List.map_congr_left
        intro sub _
        exact pointPairs_offset sub dx dy l
      simp only [Function.comp_def]
      rw [harg]
  | polyline pl =>
      rcases pl with ⟨b, pts, ms, mm, me⟩
      simp only [shapeToString, offsetShape, serializeThenTranslate, polyToString, polyCore,
        offsetPoly, Poly.base, Poly.points, Poly.marker_start, Poly.marker_mid, Poly.marker_end]
      rw [pointPairs_offset]
  | text t =>
      simp only [shapeToString, offsetShape, serializeThenTranslate, textToString, textCore]
      rw [translateX_add, translateY_add]
  | chart lc =>
      simp [ShapeV.isChart] at h

/-- Witness for C7 amended: the demo circle offset by (0, 1) under the
default layout serializes to the sign-aware translated output. -/
theorem offset_serialize_amended_witness :
    shapeToString (offsetShape demoCircle ⟨0, 1⟩) defaultLayout =
      serializeThenTranslate (sgnX defaultLayout * 0 * (defaultLayout).scale)
        (sgnY defaultLayout * 1 * (defaultLayout).scale) demoCircle defaultLayout :=
  offset_serialize_amended demoCircle defaultLayout 0 1 (by rfl)

/-! ### C8 -/

/-- C8 counterexample: for a polyline whose bounding box has height 60,
the vertex circles are constructed with stored radius 1, not
60 / 30 = 2 — `Circle` takes a *diameter*, and `polylineToString` passes
`bbox_height / 30` as the diameter. -/
theorem chart_vertex_radius_counterexample :
    getDimensions [demoPolyline] = some ⟨0, 60⟩ ∧
    ((vertexCircles 60 demoPolyline.points).map fun c => c.radius) = [1, 1] ∧
    ¬(∀ c ∈ vertexCircles 60 demoPolyline.points, c.radius = 60 / 30) := by
  refine ⟨?_, ?_, ?_⟩
  · norm_num [getDimensions, demoPolyline, Poly.points, getMinPoint, getMaxPoint]
  · norm_num [vertexCircles, circleMake, demoPolyline, Poly.points]
  · intro hall
    have hm : (circleMake (⟨0, 0⟩ : Point) (60 / 30) ⟨blackColor, 1⟩ defaultStroke) ∈
        vertexCircles 60 demoPolyline.points :=
      List.mem_map.mpr ⟨⟨0, 0⟩, by simp [demoPolyline, Poly.points], rfl⟩
    have hr := hall _ hm
    norm_num [circleMake] at hr

/-- C8 amended: every vertex circle of a chart polyline has stored radius
`bbox_height / 60` (the source passes `bbox_height / 30` as the circle's
*diameter*); and a chart to which no non-empty polyline was ever added
has no polylines and serializes to the empty string, drawing no axis. -/
theorem chart_vertex_radius_amended :
    (∀ (h : Rat) (pts : List Point) (c : CircleData),
      c ∈ vertexCircles h pts → c.radius = h / 60) ∧
    (∀ (lc : ChartData) (l : Layout), lc.polylines = [] → chartToString lc l = []) ∧
    (∀ (lc : ChartData) (l : Layout) (ps : List Poly), (∀ p ∈ ps, p.points = []) →
      chartToString (ps.foldl chartAddPolyline lc) l = chartToString lc l) := by
  refine ⟨?_, ?_, ?_⟩
  · intro h pts c hc
    rcases List.mem_map.mp hc with ⟨p, _, rfl⟩
    simp only [circleMake]
    rw [div_div]
    norm_num
  · intro lc l hl
    unfold chartToString
    rw [if_pos (by simp [hl])]
  · intro lc l ps
    induction ps generalizing lc with
    | nil => intro _; rfl
    | cons p ps ih =>
        intro hps
        rw [List.foldl_cons]
        have hp : p.points = [] := hps p (List.mem_cons_self p ps)
        have hskip : chartAddPolyline lc p = lc := by
          unfold chartAddPolyline
          rw [if_pos (by simp [hp])]
        rw [hskip]
        exact ih lc fun q hq => hps q (List.mem_cons_of_mem p hq)

/-- Witness for C8 amended: a vertex circle built for bounding-box height
60 has radius 60/60 = 1, and a chart without polylines serializes
empty. -/
theorem chart_vertex_radius_amended_witness :
    (circleMake (⟨0, 0⟩ : Point) (60 / 30) ⟨blackColor, 1⟩ defaultStroke).radius = 60 / 60 ∧
    chartToString ⟨defaultBase, defaultStroke, ⟨0, 0⟩, []⟩ defaultLayout = [] :=
  ⟨chart_vertex_radius_amended.1 60 [⟨0, 0⟩] _
      (List.mem_map.mpr ⟨⟨0, 0⟩, by simp, rfl⟩),
   chart_vertex_radius_amended.2.1 _ defaultLayout rfl⟩

/-! ### C6: string-order, marker-set and collection lemmas -/

theorem strLt_irrefl : ∀ s : Str, strLt s s = false := by
  intro s
  induction s with
  | nil => rfl
  | cons c cs ih => simp [strLt, lt_irrefl, ih]

theorem eq_of_strLt_false :
    ∀ {a b : Str}, strLt a b = false → strLt b a = false → a = b := by
  intro a
  induction a with
  | nil =>
      intro b h1 _
      cases b with
      | nil => rfl
      | cons c cs => simp [strLt] at h1
  | cons c cs ih =>
      intro b h1 h2
      cases b with
      | nil => simp [strLt] at h2
      | cons d ds =>
          simp only [strLt] at h1 h2
          by_cases hcd : c < d
          · simp [hcd] at h1
          · by_cases hdc : d < c
            · simp [hdc, hcd] at h2
            · have hce : c = d := le_antisymm (not_lt.mp hdc) (not_lt.mp hcd)
              subst hce
              simp only [lt_irrefl, if_false] at h1 h2
              rw [ih h1 h2]

theorem strLt_trans :
    ∀ {a b c : Str}, strLt a b = true → strLt b c = true → strLt a c = true := by
  intro a
  induction a with
  | nil =>
      intro b c h1 h2
      cases c with
      | nil =>
          cases b with
          | nil => simp [strLt] at h1
          | cons d ds => simp [strLt] at h2
      | cons e es => rfl
  | cons c0 cs ih =>
      intro b c h1 h2
      cases b with
      | nil => simp [strLt] at h1
      | cons d ds =>
          cases c with
          | nil => simp [strLt] at h2
          | cons e es =>
              simp only [strLt] at h1 h2 ⊢
              by_cases h1a : c0 < d
              · by_cases h2a : d < e
                · simp [lt_trans h1a h2a]
                · by_cases h2b : e < d
                  · simp [h2a, h2b] at h2
                  · have hde : d = e := le_antisymm (not_lt.mp h2b) (not_lt.mp h2a)
                    subst hde
                    simp [h1a]
              · by_cases h1b : d < c0
                · simp [h1a, h1b] at h1
                · have hcd : c0 = d := le_antisymm (not_lt.mp h1b) (not_lt.mp h1a)
                  subst hcd
                  simp only [lt_irrefl, if_false] at h1
                  by_cases h2a : c0 < e
                  · simp [h2a]
                  · by_cases h2b : e < c0
                    · simp [h2a, h2b] at h2
                    · have hce : c0 = e := le_antisymm (not_lt.mp h2b) (not_lt.mp h2a)
                      subst hce
                      simp only [lt_irrefl, if_false] at h2 ⊢
                      exact ih h1 h2

theorem mem_msInsert {a m : Marker} :
    ∀ {u : List Marker}, a ∈ msInsert m u → a = m ∨ a ∈ u := by
  intro u
  induction u with
  | nil =>
      intro h
      simp only [msInsert, List.mem_singleton] at h
      exact Or.inl h
  | cons x xs ih =>
      intro h
      rw [msInsert] at h
      by_cases h1 : strLt m.id x.id = true
      · rw [if_pos h1] at h
        rcases List.mem_cons.mp h with h2 | h2
        · exact Or.inl h2
        · exact Or.inr h2
      · rw [if_neg h1] at h
        by_cases h2 : strLt x.id m.id = true
        · rw [if_pos h2] at h
          rcases List.mem_cons.mp h with h3 | h3
          · exact Or.inr (List.mem_cons.mpr (Or.inl h3))
          · rcases ih h3 with h4 | h4
            · exact Or.inl h4
            · exact Or.inr (List.mem_cons.mpr (Or.inr h4))
        · rw [if_neg h2] at h
          exact Or.inr h

theorem msInsert_pairwise {m : Marker} :
    ∀ {u : List Marker}, u.Pairwise idLt → (msInsert m u).Pairwise idLt := by
  intro u
  induction u with
  | nil => intro _; simp [msInsert]
  | cons x xs ih =>
      intro hp
      rw [List.pairwise_cons] at hp
      obtain ⟨hx, hxs⟩ := hp
      rw [msInsert]
      by_cases h1 : strLt m.id x.id = true
      · rw [if_pos h1, List.pairwise_cons]
        refine ⟨?_, List.pairwise_cons.mpr ⟨hx, hxs⟩⟩
        intro a ha
        rcases List.mem_cons.mp ha with rfl | ha2
        · exact h1
        · exact strLt_trans h1 (hx a ha2)
      · rw [if_neg h1]
        by_cases h2 : strLt x.id m.id = true
        · rw [if_pos h2, List.pairwise_cons]
          refine ⟨?_, ih hxs⟩
          intro a ha
          rcases mem_msInsert ha with rfl | ha2
          · exact h2
          · exact hx a ha2
        · rw [if_neg h2]
          exact List.pairwise_cons.mpr ⟨hx, hxs⟩

theorem find?_msInsert {i : Marker} (idv : Str) :
    ∀ {u : List Marker}, u.Pairwise idLt →
      (msInsert i u).find? (fun j => decide (j.id = idv)) =
        ((u.find? (fun j => decide (j.id = idv))).or
          (List.find? (fun j => decide (j.id = idv)) [i])) := by
  intro u
  induction u with
  | nil => intro _; simp [msInsert]
  | cons x xs ih =>
      intro hp
      rw [List.pairwise_cons] at hp
      obtain ⟨hx, hxs⟩ := hp
      rw [msInsert]
      by_cases h1 : strLt i.id x.id = true
      · rw [if_pos h1]
        by_cases hi : i.id = idv
        · have hnone : List.find? (fun j => decide (j.id = idv)) (x :: xs) = none := by
            rw [List.find?_eq_none]
            intro j hj
            rcases List.mem_cons.mp hj with rfl | hj2
            · simp only [decide_eq_true_eq]
              intro hji
              rw [hji, ← hi] at h1
              exact absurd h1 (by simp [strLt_irrefl])
            · simp only [decide_eq_true_eq]
              intro hji
              have hlt : strLt i.id j.id = true := strLt_trans h1 (hx j hj2)
              rw [hji, ← hi] at hlt
              exact absurd hlt (by simp [strLt_irrefl])
          rw [hnone]
          simp [List.find?_cons, hi]
        · simp [List.find?_cons, List.find?_singleton, hi]
      · by_cases h2 : strLt x.id i.id = true
        · rw [if_neg h1, if_pos h2]
          by_cases hxv : x.id = idv
          · simp [List.find?_cons, hxv]
          · rw [List.find?_cons, List.find?_cons]
            simp only [hxv, decide_eq_true_eq, if_neg hxv]
            exact ih hxs
        · rw [if_neg h1, if_neg h2]
          have heq : i.id = x.id := eq_of_strLt_false (by simpa using h1) (by simpa using h2)
          by_cases hxv : x.id = idv
          · simp [List.find?_cons, hxv]
          · have hiv : ¬(i.id = idv) := by rw [heq]; exact hxv
            rw [List.find?_cons]
            simp [hxv, List.find?_singleton, hiv]

theorem collideDiags_iff (i : Marker) :
    ∀ {u : List Marker}, u.Pairwise idLt →
      (collideDiags u i ≠ [] ↔
        ∃ f, u.find? (fun j => decide (j.id = i.id)) = some f ∧ markerNe i f = true) := by
  intro u
  induction u with
  | nil => intro _; simp [collideDiags]
  | cons x xs ih =>
      intro hp
      rw [List.pairwise_cons] at hp
      obtain ⟨hx, hxs⟩ := hp
      unfold collideDiags
      rw [List.filter_cons]
      by_cases hswitch : (decide (x.id = i.id) && markerNe i x) = true
      · rw [if_pos hswitch]
        rw [Bool.and_eq_true, decide_eq_true_eq] at hswitch
        obtain ⟨hxe, hne⟩ := hswitch
        simp only [List.map_cons]
        constructor
        · intro _
          exact ⟨x, by simp [List.find?_cons, hxe], hne⟩
        · intro _
          simp
      · rw [if_neg hswitch]
        by_cases hxe : x.id = i.id
        · have hnf : markerNe i x = false := by
            by_contra hc
            exact hswitch (by simp [hxe, eq_true_of_ne_false hc])
          have hfil : xs.filter (fun j => decide (j.id = i.id) && markerNe i j) = [] := by
            rw [List.filter_eq_nil_iff]
            intro j hj
            have hlt : strLt x.id j.id = true := hx j hj
            simp only [Bool.and_eq_true, decide_eq_true_eq, not_and]
            intro hji
            exfalso
            rw [hji, ← hxe] at hlt
            exact absurd hlt (by simp [strLt_irrefl])
          rw [hfil]
          simp [List.find?_cons, hxe, hnf]
        · have hskip : List.find? (fun j => decide (j.id = i.id)) (x :: xs) =
              List.find? (fun j => decide (j.id = i.id)) xs := by
            rw [List.find?_cons]
            simp [hxe]
          rw [hskip]
          simpa [collideDiags] using ih hxs

theorem mem_optInsert {a : Marker} {om : Option Marker} {s : List Marker}
    (h : a ∈ optInsert om s) : a ∈ validSlot om ∨ a ∈ s := by
  cases om with
  | none => exact Or.inr (by simpa [optInsert] using h)
  | some m =>
      by_cases hv : m.valid = true
      · rw [optInsert, if_pos hv] at h
        rcases mem_msInsert h with rfl | h2
        · exact Or.inl (by simp [validSlot, hv])
        · exact Or.inr h2
      · rw [optInsert, if_neg hv] at h
        exact Or.inr h

theorem mem_getUsedMarkers {a : Marker} {ms mm me : Option Marker}
    (h : a ∈ getUsedMarkers ms mm me) :
    a ∈ validSlot ms ++ validSlot mm ++ validSlot me := by
  unfold getUsedMarkers at h
  rcases mem_optInsert h with h1 | h2
  · simp [h1]
  · rcases mem_optInsert h2 with h3 | h4
    · simp [h3]
    · rcases mem_optInsert h4 with h5 | h6
      · simp [h5]
      · simp at h6

theorem mem_nodeMarkers_slot {a : Marker} {sv : ShapeV} (h : a ∈ nodeMarkers sv) :
    a ∈ slotMarkers sv := by
  cases sv with
  | line d =>
      exact mem_getUsedMarkers h
  | polyline pl =>
      exact mem_getUsedMarkers h
  | circle c => simp [nodeMarkers] at h
  | elipse e => simp [nodeMarkers] at h
  | rect r => simp [nodeMarkers] at h
  | polygon pg => simp [nodeMarkers] at h
  | path pa => simp [nodeMarkers] at h
  | text t => simp [nodeMarkers] at h
  | chart lc => simp [nodeMarkers] at h

theorem mem_validSlot_valid {a : Marker} {om : Option Marker}
    (h : a ∈ validSlot om) : a.id ≠ [] := by
  cases om with
  | none => simp [validSlot] at h
  | some m =>
      by_cases hv : m.valid = true
      · rw [validSlot, if_pos hv] at h
        rw [List.mem_singleton] at h
        subst h
        simpa [Marker.valid] using hv
      · rw [validSlot, if_neg hv] at h
        simp at h

theorem mem_slotMarkers_valid {a : Marker} {sv : ShapeV}
    (h : a ∈ slotMarkers sv) : a.id ≠ [] := by
  cases sv with
  | line d =>
      rcases List.mem_append.mp h with h1 | h2
      · rcases List.mem_append.mp h1 with h3 | h4
        · exact mem_validSlot_valid h3
        · exact mem_validSlot_valid h4
      · exact mem_validSlot_valid h2
  | polyline pl =>
      rcases List.mem_append.mp h with h1 | h2
      · rcases List.mem_append.mp h1 with h3 | h4
        · exact mem_validSlot_valid h3
        · exact mem_validSlot_valid h4
      · exact mem_validSlot_valid h2
  | circle c => simp [slotMarkers] at h
  | elipse e => simp [slotMarkers] at h
  | rect r => simp [slotMarkers] at h
  | polygon pg => simp [slotMarkers] at h
  | path pa => simp [slotMarkers] at h
  | text t => simp [slotMarkers] at h
  | chart lc => simp [slotMarkers] at h

theorem mem_seqOf_ref :
    ∀ {nodes : List ShapeV} {a : Marker}, a ∈ seqOf nodes → a ∈ refSeq nodes := by
  intro nodes
  induction nodes with
  | nil => intro a h; simp [seqOf] at h
  | cons n ns ih =>
      intro a h
      rw [seqOf] at h
      rw [refSeq]
      rcases List.mem_append.mp h with h1 | h2
      · exact List.mem_append.mpr (Or.inl (mem_nodeMarkers_slot h1))
      · exact List.mem_append.mpr (Or.inr (ih h2))

theorem mem_refSeq_valid :
    ∀ {nodes : List ShapeV} {a : Marker}, a ∈ refSeq nodes → a.id ≠ [] := by
  intro nodes
  induction nodes with
  | nil => intro a h; simp [refSeq] at h
  | cons n ns ih =>
      intro a h
      rw [refSeq] at h
      rcases List.mem_append.mp h with h1 | h2
      · exact mem_slotMarkers_valid h1
      · exact ih h2

theorem collect_eq_processSeq :
    ∀ (nodes : List ShapeV) (acc : List Marker × List Str),
      nodes.foldl collectNode acc = processSeq (seqOf nodes) acc := by
  intro nodes
  induction nodes with
  | nil => intro acc; rfl
  | cons n ns ih =>
      intro acc
      rw [List.foldl_cons, ih]
      simp [processSeq, seqOf, List.foldl_append, collectNode]

theorem processSeq_snd :
    ∀ (s : List Marker) (acc : List Marker × List Str),
      (processSeq s acc).2 = acc.2 ++ runDiags s acc.1 := by
  intro s
  induction s with
  | nil => intro acc; simp [processSeq, runDiags]
  | cons i rest ih =>
      intro acc
      rw [processSeq, List.foldl_cons, ← processSeq, ih]
      rw [runDiags]
      simp [collectStep, List.append_assoc]

theorem runDiags_iff :
    ∀ (s : List Marker) (u hist : List Marker), u.Pairwise idLt →
      (∀ idv, u.find? (fun j => decide (j.id = idv)) =
        hist.find? (fun j => decide (j.id = idv))) →
      (runDiags s u ≠ [] ↔ ∃ k i f, s[k]? = some i ∧
        (hist ++ s.take k).find? (fun j => decide (j.id = i.id)) = some f ∧
        markerNe i f = true) := by
  intro s
  induction s with
  | nil =>
      intro u hist _ _
      simp [runDiags]
  | cons i rest ih =>
      intro u hist hp hfind
      rw [runDiags]
      have hne : (collideDiags u i ++ runDiags rest (msInsert i u)) ≠ [] ↔
          (collideDiags u i ≠ [] ∨ runDiags rest (msInsert i u) ≠ []) := by
        rw [ne_eq, List.append_eq_nil]
        tauto
      rw [hne]
      have hfind2 : ∀ idv, (msInsert i u).find? (fun j => decide (j.id = idv)) =
          (hist ++ [i]).find? (fun j => decide (j.id = idv)) := by
        intro idv
        rw [find?_msInsert idv hp, List.find?_append, hfind]
      rw [collideDiags_iff i hp, ih (msInsert i u) (hist ++ [i]) (msInsert_pairwise hp) hfind2]
      constructor
      · rintro (⟨f, hf, hnef⟩ | ⟨k, i2, f, hk, hf, hnef⟩)
        · refine ⟨0, i, f, by simp, ?_, hnef⟩
          simp only [List.take_zero, List.append_nil]
          rw [← hfind]
          exact hf
        · refine ⟨k + 1, i2, f, by simpa using hk, ?_, hnef⟩
          rw [List.take_succ_cons, ← List.singleton_append, ← List.append_assoc]
          exact hf
      · rintro ⟨k, i2, f, hk, hf, hnef⟩
        cases k with
        | zero =>
            left
            rw [List.getElem?_cons_zero] at hk
            have hii : i = i2 := by simpa using hk
            subst hii
            refine ⟨f, ?_, hnef⟩
            rw [hfind]
            simpa using hf
        | succ k =>
            right
            refine ⟨k, i2, f, by simpa using hk, ?_, hnef⟩
            rw [List.take_succ_cons, ← List.singleton_append, ← List.append_assoc] at hf
            exact hf

theorem write_diags (d : Document) :
    (d.write).2.1 = runDiags (seqOf d.finalOrder) [] := by
  show (collectMarkers d.finalOrder).2 = _
  rw [collectMarkers, collect_eq_processSeq, processSeq_snd]
  simp

/-- C6 counterexample: one `Line` referencing, as start and end markers,
two different markers that share the non-empty identifier "m" and differ
in content per `Marker::operator!=`.  Both markers are referenced by the
document (both `url(#m)` attributes are emitted), yet serialization
reports no collision diagnostic: the per-node marker set already
deduplicates by identifier, so the second marker is never compared. -/
theorem marker_collision_counterexample :
    slotMarkers demoLine = [demoMarkerA, demoMarkerB] ∧
    demoMarkerA.id = demoMarkerB.id ∧
    demoMarkerA.id ≠ [] ∧
    markerNe demoMarkerA demoMarkerB = true ∧
    ((mkDoc defaultLayout [] [demoLine]).write).2.1 = [] := by
  refine ⟨by rfl, by rfl, by decide, ?_, by rfl⟩
  norm_num [markerNe, demoMarkerA, demoMarkerB, Marker.shapes, Marker.marker_width,
    Marker.marker_height, Marker.ref_x, Marker.ref_y, Marker.id, qeq, sortStrs, isortBy,
    insertKeep, shapeToString, circleToString, circleCore, translateX, translateY,
    translateScale, defaultLayout, defaultBase, defaultFill, defaultStroke,
    transparentColor, qstr, intStr, natStr, attrQ, attrOf, attrS, serializeId,
    surfaceAttrs, shapeAttrs, Stroke.render, Fill.render, Color.render, elemStart,
    emptyElemEnd, strJoin, strLt]
  all_goals decide

/-- C6 amended: during serialization a collision diagnostic is reported
if and only if some marker in the collection sequence (per-node marker
sets keep only the first marker of each identifier among start/mid/end,
in that order) differs in content from the first previously collected
marker with the same identifier.  Consequently a diagnostic always
exhibits two referenced markers sharing a non-empty identifier with
different content; if all referenced markers sharing an identifier have
equal content, no diagnostic is reported; and the diagnostic is
non-fatal — serialization always produces (non-empty) output. -/
theorem marker_collision_amended :
    ∀ d : Document,
      ((d.write).2.1 ≠ [] ↔ ∃ k i f, (seqOf d.finalOrder)[k]? = some i ∧
        ((seqOf d.finalOrder).take k).find? (fun j => decide (j.id = i.id)) = some f ∧
        markerNe i f = true) ∧
      ((d.write).2.1 ≠ [] → ∃ i f, i ∈ refSeq d.finalOrder ∧ f ∈ refSeq d.finalOrder ∧
        i.id = f.id ∧ i.id ≠ [] ∧ markerNe i f = true) ∧
      ((∀ i ∈ refSeq d.finalOrder, ∀ f ∈ refSeq d.finalOrder, i.id = f.id →
        markerNe i f = false) → (d.write).2.1 = []) ∧
      (d.write).1 ≠ [] := by
  intro d
  have hiff := runDiags_iff (seqOf d.finalOrder) [] [] List.Pairwise.nil (fun _ => rfl)
  have hiff2 : (d.write).2.1 ≠ [] ↔ ∃ k i f, (seqOf d.finalOrder)[k]? = some i ∧
      ((seqOf d.finalOrder).take k).find? (fun j => decide (j.id = i.id)) = some f ∧
      markerNe i f = true := by
    rw [write_diags, hiff]
    simp
  have hpair : (d.write).2.1 ≠ [] → ∃ i f, i ∈ refSeq d.finalOrder ∧
      f ∈ refSeq d.finalOrder ∧ i.id = f.id ∧ i.id ≠ [] ∧ markerNe i f = true := by
    intro hne
    obtain ⟨k, i, f, hk, hf, hmn⟩ := hiff2.mp hne
    have hi : i ∈ seqOf d.finalOrder := List.getElem?_mem hk
    have hfm : f ∈ seqOf d.finalOrder :=
      List.mem_of_mem_take (List.mem_of_find?_eq_some hf)
    have hideq : f.id = i.id := by simpa using List.find?_some hf
    exact ⟨i, f, mem_seqOf_ref hi, mem_seqOf_ref hfm, hideq.symm,
      mem_refSeq_valid (mem_seqOf_ref hi), hmn⟩
  refine ⟨hiff2, hpair, ?_, ?_⟩
  · intro hall
    by_contra hne
    obtain ⟨i, f, hi, hf, hid, _, hmn⟩ := hpair hne
    have hfalse := hall i hi f hf hid
    rw [hfalse] at hmn
    exact Bool.false_ne_true hmn
  · have hform : (d.write).1 = docHeader d ++
        defsSection (collectMarkers d.finalOrder).1 d.layout ++
        strJoin ((d.finalOrder).map fun s => shapeToString s d.layout) ++
        strJoin (d.animation_nodes.map fun a => animToString a d.layout) ++
        elemEnd ("svg").toList := rfl
    rw [hform]
    apply List.append_ne_nil_of_left_ne_nil
    apply List.append_ne_nil_of_left_ne_nil
    apply List.append_ne_nil_of_left_ne_nil
    apply List.append_ne_nil_of_left_ne_nil
    unfold docHeader
    repeat apply List.append_ne_nil_of_left_ne_nil
    decide

/-- Witness for C6 amended: a document without marker references produces
no collision diagnostic. -/
theorem marker_collision_amended_witness :
    ((emptyDoc defaultLayout []).write).2.1 = [] :=
  (marker_collision_amended (emptyDoc defaultLayout [])).2.2.1 (by
    intro i hi
    simp [Document.finalOrder, emptyDoc, refSeq] at hi)

end SvgWriter
